import Mathlib

/-!
# Verification of the iSCSI initiator session controller

A shallow embedding of the control-plane core of the iSCSI initiator
(session controller, login state machine, text negotiator, parameter
store, CHAP authenticator, identifier registry) together with proofs of
the testable properties stated for it.

The repository ships the public interface (`iSCSISession.h`); the
function bodies are not part of the sources, so each operation is
modelled from the specification document, faithful to its words.  Every
such definition carries a doc comment beginning `Modelled from the
spec:` naming what is missing.  Byte strings are modelled as `List Nat`
with each element a byte value.
-/

namespace ISCSI

/-! ## MD5 (RFC 1321), used by the CHAP authenticator

The CHAP exchange computes `CHAP_R = MD5(CHAP_I || secret || CHAP_C)`.
MD5 itself is an external, fully specified algorithm; it is implemented
here in full (padding, 64-round compression, little-endian digest
rendering) so that the CHAP response can be evaluated on concrete
inputs. -/

/-- Truncation to a 32-bit word. -/
def w32 (x : Nat) : Nat := x % 4294967296

/-- 32-bit left rotation by `s` bits. -/
def rotl32 (x s : Nat) : Nat :=
  w32 (Nat.lor (Nat.shiftLeft (w32 x) s) (Nat.shiftRight (w32 x) (32 - s)))

/-- 32-bit bitwise complement. -/
def not32 (x : Nat) : Nat := Nat.xor (w32 x) 4294967295

/-- The 64 MD5 sine-derived additive constants (RFC 1321 step 4). -/
def md5K : List Nat :=
  [3614090360, 3905402710, 606105819, 3250441966, 4118548399, 1200080426,
   2821735955, 4249261313, 1770035416, 2336552879, 4294925233, 2304563134,
   1804603682, 4254626195, 2792965006, 1236535329, 4129170786, 3225465664,
   643717713, 3921069994, 3593408605, 38016083, 3634488961, 3889429448,
   568446438, 3275163606, 4107603335, 1163531501, 2850285829, 4243563512,
   1735328473, 2368359562, 4294588738, 2272392833, 1839030562, 4259657740,
   2763975236, 1272893353, 4139469664, 3200236656, 681279174, 3936430074,
   3572445317, 76029189, 3654602809, 3873151461, 530742520, 3299628645,
   4096336452, 1126891415, 2878612391, 4237533241, 1700485571, 2399980690,
   4293915773, 2240044497, 1873313359, 4264355552, 2734768916, 1309151649,
   4149444226, 3174756917, 718787259, 3951481745]

/-- The 64 MD5 per-round left-rotation amounts (RFC 1321 step 4). -/
def md5S : List Nat :=
  [7, 12, 17, 22, 7, 12, 17, 22, 7, 12, 17, 22, 7, 12, 17, 22,
   5, 9, 14, 20, 5, 9, 14, 20, 5, 9, 14, 20, 5, 9, 14, 20,
   4, 11, 16, 23, 4, 11, 16, 23, 4, 11, 16, 23, 4, 11, 16, 23,
   6, 10, 15, 21, 6, 10, 15, 21, 6, 10, 15, 21, 6, 10, 15, 21]

/-- The MD5 round mixing function for round `i` (`F`, `G`, `H`, `I` of
RFC 1321 according to the round group). -/
def md5F (i b c d : Nat) : Nat :=
  if i < 16 then Nat.lor (Nat.land b c) (Nat.land (not32 b) d)
  else if i < 32 then Nat.lor (Nat.land d b) (Nat.land (not32 d) c)
  else if i < 48 then Nat.xor b (Nat.xor c d)
  else Nat.xor c (Nat.lor b (not32 d))

/-- The message-word index schedule for round `i` (RFC 1321 step 4). -/
def md5G (i : Nat) : Nat :=
  if i < 16 then i
  else if i < 32 then (5 * i + 1) % 16
  else if i < 48 then (3 * i + 5) % 16
  else (7 * i) % 16

/-- One MD5 round: `m` fetches message words of the current block. -/
def md5Round (m : Nat → Nat) (st : Nat × Nat × Nat × Nat) (i : Nat) :
    Nat × Nat × Nat × Nat :=
  let a := st.1
  let b := st.2.1
  let c := st.2.2.1
  let d := st.2.2.2
  let f := w32 (md5F i b c d + a + md5K.getD i 0 + m (md5G i))
  (d, w32 (b + rotl32 f (md5S.getD i 0)), b, c)

/-- Little-endian 32-bit word `j` of a 64-byte block. -/
def blockWord (block : List Nat) (j : Nat) : Nat :=
  block.getD (4 * j) 0 + 256 * block.getD (4 * j + 1) 0 +
    65536 * block.getD (4 * j + 2) 0 + 16777216 * block.getD (4 * j + 3) 0

/-- MD5 compression of one 64-byte block into the running state. -/
def md5ProcessBlock (st : Nat × Nat × Nat × Nat) (block : List Nat) :
    Nat × Nat × Nat × Nat :=
  let r := (List.range 64).foldl (md5Round (blockWord block)) st
  (w32 (st.1 + r.1), w32 (st.2.1 + r.2.1), w32 (st.2.2.1 + r.2.2.1),
   w32 (st.2.2.2 + r.2.2.2))

/-- The `n` low-order bytes of `x`, little-endian. -/
def natLEBytes (x n : Nat) : List Nat :=
  (List.range n).map (fun j => Nat.shiftRight x (8 * j) % 256)

/-- RFC 1321 padding: `0x80`, zeros to 56 mod 64, 8-byte bit length. -/
def md5Pad (msg : List Nat) : List Nat :=
  msg ++ [128] ++ List.replicate ((56 + 64 - (msg.length + 1) % 64) % 64) 0 ++
    natLEBytes (8 * msg.length) 8

/-- Splits a byte string into 64-byte blocks (`fuel` bounds the number of
blocks; structural recursion so the kernel can evaluate it). -/
def chunks64 : Nat → List Nat → List (List Nat)
  | 0, _ => []
  | _ + 1, [] => []
  | fuel + 1, l => l.take 64 :: chunks64 fuel (l.drop 64)

/-- The 16-byte MD5 digest of a byte string. -/
def md5Digest (msg : List Nat) : List Nat :=
  let padded := md5Pad msg
  let fin := (chunks64 padded.length padded).foldl md5ProcessBlock
    (1732584193, 4023233417, 2562383102, 271733878)
  natLEBytes fin.1 4 ++ natLEBytes fin.2.1 4 ++ natLEBytes fin.2.2.1 4 ++
    natLEBytes fin.2.2.2 4

/-- Lowercase hexadecimal digit for `n < 16`. -/
def hexDigit (n : Nat) : Char :=
  Char.ofNat (if n < 10 then 48 + n else 87 + n)

/-- Lowercase hexadecimal rendering of a byte string. -/
def bytesToHex (bs : List Nat) : String :=
  String.mk (bs.flatMap (fun b => [hexDigit (b / 16), hexDigit (b % 16)]))

/-! ## CHAP authenticator (component D) -/

/-- Modelled from the spec: the Authenticator's implementation is not under
`src/`.  Step 3 of the CHAP exchange: the response value is
`MD5(CHAP_I || secret || CHAP_C)` rendered as (lowercase) hex, where
`CHAP_I` is the one-byte identifier received from the target and
`CHAP_C` the received challenge bytes. -/
def chapResponseHex (chapI : Nat) (secret chapC : List Nat) : String :=
  bytesToHex (md5Digest (chapI % 256 :: (secret ++ chapC)))

/-- Modelled from the spec: the key/value pairs the initiator sends in step 3
of the CHAP exchange: `CHAP_N=<name>` and `CHAP_R=<response>`. -/
def chapReplyKeys (name : String) (secret : List Nat) (chapI : Nat)
    (chapC : List Nat) : List (String × String) :=
  [(("CHAP_N"), name), (("CHAP_R"), chapResponseHex chapI secret chapC)]

/-- The secret of the CHAP test scenario, `"0123456789abcdef"` as bytes. -/
def chapScenarioSecret : List Nat :=
  (String.toList ("0123456789abcdef")).map Char.toNat

/-- The challenge of the CHAP test scenario, bytes `0x00 0x01 … 0x0f`. -/
def chapScenarioChallenge : List Nat := List.range 16

/-- A character is a lowercase hexadecimal digit: `0`–`9` or `a`–`f`. -/
def IsLowerHexChar (c : Char) : Prop :=
  (48 ≤ c.toNat ∧ c.toNat ≤ 57) ∨ (97 ≤ c.toNat ∧ c.toNat ≤ 102)

instance (c : Char) : Decidable (IsLowerHexChar c) := by
  unfold IsLowerHexChar; infer_instance

/-! ## Login state machine (component E) -/

/-- The login negotiation stages of a connection. -/
inductive LoginStage
  | securityNegotiation
  | operationalNegotiation
  | fullFeature
deriving DecidableEq

/-- CSG/NSG wire encoding of a stage: `0 = Security`, `1 = Operational`,
`3 = FullFeature`. -/
def stageCode : LoginStage → Nat
  | .securityNegotiation => 0
  | .operationalNegotiation => 1
  | .fullFeature => 3

/-- Modelled from the spec: the Login State Machine implementation is not
under `src/`.  The legal next stage: transitions are monotonic
`Security → Operational → FullFeature` and `Security → FullFeature` is
illegal, so from Security the only legal next stage is Operational. -/
def nextStage : LoginStage → Option LoginStage
  | .securityNegotiation => some .operationalNegotiation
  | .operationalNegotiation => some .fullFeature
  | .fullFeature => none

/-- One login request/response exchange: the transit (`T`) and continue
(`C`) bits and the `NSG` field of the initiator's request and of the
target's reply. -/
structure LoginExchange where
  reqT : Bool
  reqC : Bool
  reqNsg : Nat
  rspT : Bool
  rspC : Bool
  rspNsg : Nat
deriving DecidableEq

/-- Modelled from the spec: well-formedness of an exchange driven by the
initiator in stage `st`: `NSG` is valid only when `T=1`, a PDU with
`C=1` cannot also assert transit, and when the driver requests transit
its `NSG` is the legal next stage for `st`. -/
def WfExchange (st : LoginStage) (ex : LoginExchange) : Prop :=
  (ex.reqC = true → ex.reqT = false) ∧ (ex.rspC = true → ex.rspT = false) ∧
    (ex.reqT = true →
      nextStage st ≠ none ∧ ex.reqNsg = stageCode ((nextStage st).getD st))

/-- Modelled from the spec: the state advances only on mutual `T=1` with
matching `NSG` (to a legal next stage) and no continuation pending. -/
def exchangeAdvances (st : LoginStage) (ex : LoginExchange) : Bool :=
  ex.reqT && ex.rspT && !ex.reqC && !ex.rspC &&
    match nextStage st with
    | some ns => decide (ex.reqNsg = stageCode ns) &&
        decide (ex.rspNsg = stageCode ns)
    | none => false

/-- Modelled from the spec: the stage after one login exchange. -/
def loginStep (st : LoginStage) (ex : LoginExchange) : LoginStage :=
  if exchangeAdvances st ex then (nextStage st).getD st else st

/-! ## Parameter store (component B) -/

/-- The RFC 3720 result functions for text-key negotiation. -/
inductive ResultFunction
  | minimum
  | maximum
  | boolAnd
  | boolOr
  | choose
  | valueList
deriving DecidableEq

/-- Modelled from the spec: the Parameter Store implementation is not under
`src/`.  The result function of each negotiated key, per RFC 3720 §12
(`none` for declarative / unrecognized keys). -/
def resultFunctionOf : String → Option ResultFunction
  | "MaxConnections" => some .minimum
  | "MaxBurstLength" => some .minimum
  | "FirstBurstLength" => some .minimum
  | "MaxOutstandingR2T" => some .minimum
  | "DefaultTime2Retain" => some .minimum
  | "ErrorRecoveryLevel" => some .minimum
  | "DefaultTime2Wait" => some .maximum
  | "ImmediateData" => some .boolAnd
  | "InitialR2T" => some .boolOr
  | "DataPDUInOrder" => some .boolOr
  | "DataSequenceInOrder" => some .boolOr
  | "HeaderDigest" => some .choose
  | "DataDigest" => some .choose
  | "AuthMethod" => some .valueList
  | _ => none

/-- Modelled from the spec: applying a result function to two numeric (or
boolean, encoded 0/1) proposals.  `Choose`/`List` keys negotiate over
value lists and fall outside this numeric fragment, hence `none`. -/
def applyNumericResult : ResultFunction → Nat → Nat → Option Nat
  | .minimum, a, b => some (min a b)
  | .maximum, a, b => some (max a b)
  | .boolAnd, a, b => some (if a = 1 ∧ b = 1 then 1 else 0)
  | .boolOr, a, b => some (if a = 1 ∨ b = 1 then 1 else 0)
  | .choose, _, _ => none
  | .valueList, _, _ => none

/-- Per-key negotiation state: the buffered local proposal and the
recorded peer offer. -/
structure ParamEntry where
  proposed : Option Nat
  received : Option Nat
deriving DecidableEq

/-- The Parameter Store's numeric fragment: per-key negotiation state. -/
abbrev ParamStore := List (String × ParamEntry)

/-- The entry for key `k` (fresh entry when the key is absent). -/
def storeEntry (st : ParamStore) (k : String) : ParamEntry :=
  (st.lookup k).getD ⟨none, none⟩

/-- Replaces the entry for key `k`. -/
def storeUpdate (st : ParamStore) (k : String) (e : ParamEntry) : ParamStore :=
  (k, e) :: st.filter (fun p => !(p.1 == k))

/-- Modelled from the spec: `propose(value)` buffers the value to send. -/
def storePropose (st : ParamStore) (k : String) (v : Nat) : ParamStore :=
  storeUpdate st k { storeEntry st k with proposed := some v }

/-- Modelled from the spec: `receive(value)` records the peer offer. -/
def storeReceive (st : ParamStore) (k : String) (v : Nat) : ParamStore :=
  storeUpdate st k { storeEntry st k with received := some v }

/-- Modelled from the spec: `finalize()` applies the key's result function
to the two proposals; `none` when either proposal is missing or the key
falls outside the numeric fragment. -/
def storeFinalize (st : ParamStore) (k : String) : Option Nat :=
  match resultFunctionOf k, (storeEntry st k).proposed,
      (storeEntry st k).received with
  | some fn, some a, some b => applyNumericResult fn a b
  | _, _, _ => none

/-! ## Text negotiator (component C) -/

/-- A `key=value` pair, both sides as byte strings. -/
abbrev TextPair := List Nat × List Nat

/-- Modelled from the spec: the Text Negotiator implementation is not under
`src/`.  Serialization of one pair into the iSCSI text format
`key=value\0` (byte 61 is `=`, byte 0 is the NUL terminator). -/
def serializePair (p : TextPair) : List Nat :=
  p.1 ++ 61 :: p.2 ++ [0]

/-- Modelled from the spec: serialization of a keyset: the `key=value\0`
records concatenated into a PDU data segment. -/
def serializeKeys (ps : List TextPair) : List Nat :=
  ps.flatMap serializePair

/-- Splits a byte string at the first occurrence of byte `b` (dropped). -/
def splitAtByte (b : Nat) : List Nat → Option (List Nat × List Nat)
  | [] => none
  | x :: xs =>
    if x = b then some ([], xs)
    else (splitAtByte b xs).map (fun q => (x :: q.1, q.2))

/-- Modelled from the spec: parser worker.  Each record runs up to the next
NUL and is split at its first `=`; `fuel` bounds the number of records
(structural recursion so the kernel can evaluate it). -/
def parseKeysAux : Nat → List Nat → Option (List TextPair)
  | 0, cs => if cs = [] then some [] else none
  | fuel + 1, cs =>
    if cs = [] then some []
    else
      match splitAtByte 0 cs with
      | none => none
      | some (r, rest) =>
        match splitAtByte 61 r with
        | none => none
        | some (k, v) => (parseKeysAux fuel rest).map (fun t => (k, v) :: t)

/-- Modelled from the spec: parsing a PDU data segment back into a keyset. -/
def parseKeys (cs : List Nat) : Option (List TextPair) :=
  parseKeysAux cs.length cs

/-- The length bounds of the claim: keys up to 63 bytes, values up to 255
bytes per RFC. -/
def AdmissiblePair (p : TextPair) : Prop :=
  p.1.length ≤ 63 ∧ p.2.length ≤ 255

instance (p : TextPair) : Decidable (AdmissiblePair p) := by
  unfold AdmissiblePair; infer_instance

/-- Well-formed text pair per RFC 3720 key syntax: the key contains
neither `=` (61) nor NUL (0), and the value contains no NUL. -/
def TextWfPair (p : TextPair) : Prop :=
  61 ∉ p.1 ∧ 0 ∉ p.1 ∧ 0 ∉ p.2

instance (p : TextPair) : Decidable (TextWfPair p) := by
  unfold TextWfPair; infer_instance

/-! ## Identifier registry (component A) -/

/-- Modelled from the spec: the Identifier Registry implementation is not
under `src/`.  Smallest-unused search: first identifier `≥ n` not held,
trying `fuel` candidates. -/
def firstFree (held : List Nat) : Nat → Nat → Option Nat
  | 0, _ => none
  | fuel + 1, n => if held.contains n then firstFree held fuel (n + 1) else some n

/-- Modelled from the spec: `allocSid()` allocates the smallest unused SID
in `1..65535`; `none` (`Exhausted`) when all are live. -/
def allocSid (held : List Nat) : Option Nat := firstFree held 65535 1

/-- Modelled from the spec: `freeSid(SID)` releases a held SID. -/
def freeSid (held : List Nat) (s : Nat) : List Nat := held.erase s

/-- Modelled from the spec: `allocCid(SID)` allocates the smallest unused
CID (`1..65535`) within a session, given the session's held CIDs. -/
def allocCid (cids : List Nat) : Option Nat := firstFree cids 65535 1

/-! ## Session controller (component F)

The bodies of the public operations declared in
`src/User Tools/iSCSISession.h` are not part of the sources; each is
modelled from the specification.  Socket transport and negotiation
outcomes are abstracted by explicit oracle arguments (`outcome`,
`okF`): the model is a function of the outcome, and the claims are
proved for the relevant outcomes.  Identifier fields irrelevant to the
verified claims (ISID, TSIH, negotiated parameter sets) are elided. -/

/-- The lifecycle state of a session record. -/
inductive SessState
  | loggedIn
  | failed
  | dormant
  | loggedOut
deriving DecidableEq

/-- A connection record: the portal key `(host, port, interface)`
flattened to one string, and the socket handle. -/
structure ConnRec where
  portalKey : String
  socket : Nat
deriving DecidableEq

/-- A session record: target IQN, session type, connection map keyed by
CID, the leading CID and the lifecycle state. -/
structure SessionRec where
  iqn : String
  discovery : Bool
  connections : List (Nat × ConnRec)
  leadingCid : Nat
  sessState : SessState
deriving DecidableEq

/-- The minimal reconnect descriptor recorded by `prepareForSleep`:
original SID, target, leading portal and the portals of the additional
connections. -/
structure ReconnectDesc where
  sid : Nat
  iqn : String
  leadingPortal : String
  extraPortals : List String
deriving DecidableEq

/-- Calls made to the opaque `KernelTransport` collaborator. -/
inductive KernelCall
  | install (sid cid : Nat)
  | release (sid : Nat) (cid : Option Nat)
  | quiesce
  | resume
deriving DecidableEq

/-- Socket lifecycle events of one operation. -/
inductive SockEvent
  | opened (sock : Nat)
  | closed (sock : Nat)
  | handedToKernel (sock : Nat)
deriving DecidableEq

/-- The session controller's state: the owned session records, the
reconnect descriptors stored for sleep, and the descriptors of sessions
recorded as `Dormant` after a failed wake restoration. -/
structure CtrlState where
  sessions : List (Nat × SessionRec)
  sleepDescs : List ReconnectDesc
  dormantDescs : List ReconnectDesc
deriving DecidableEq

/-- The controller state right after `iSCSIInitialize`. -/
def initCtrl : CtrlState := ⟨[], [], []⟩

/-- The SIDs currently held by session records. -/
def heldSids (st : CtrlState) : List Nat := st.sessions.map Prod.fst

/-- SID selection: reuse the requested SID when it is valid and free
(wake restoration, "preserving original SID where possible"),
otherwise allocate the smallest unused SID. -/
def pickSid (st : CtrlState) (reuse : Option Nat) : Option Nat :=
  match reuse with
  | some s =>
    if 1 ≤ s ∧ s ≤ 65535 ∧ ¬(heldSids st).contains s = true then some s
    else allocSid (heldSids st)
  | none => allocSid (heldSids st)

/-- The result of a session login: resulting controller state, the SID
and CID surfaced through the out-parameters, the login status code, and
the kernel-transport calls and socket events of the operation. -/
structure LoginResult where
  state : CtrlState
  sid : Nat
  cid : Nat
  statusCode : Nat
  kernelCalls : List KernelCall
  socketEvents : List SockEvent
deriving DecidableEq

/-- Modelled from the spec: the body of `iSCSILoginSession` (declared in
`iSCSISession.h`) is not under `src/`.  On success a fresh session is
recorded with its leading connection (CID 1) and the socket is handed
to the kernel (`install`); a pre-existing normal session for the same
IQN is discarded first (session reinstatement, with `release` of its
SID).  On negotiation failure — `outcome = false`, status `failCode` —
or registry exhaustion, no session/connection record is retained and
the socket is closed.  `reuse` requests a specific SID (wake path);
the public operation passes `none`. -/
def iSCSILoginSession (st : CtrlState) (iqn portalKey : String)
    (discovery : Bool) (sock : Nat) (outcome : Bool) (failCode : Nat)
    (reuse : Option Nat) : LoginResult :=
  if outcome then
    match pickSid st reuse with
    | some sid =>
      let stale := if discovery then [] else
        st.sessions.filter (fun p => p.2.iqn == iqn && !p.2.discovery)
      let kept := if discovery then st.sessions else
        st.sessions.filter (fun p => !(p.2.iqn == iqn && !p.2.discovery))
      { state := { st with sessions :=
          (sid, ⟨iqn, discovery, [(1, ⟨portalKey, sock⟩)], 1,
            SessState.loggedIn⟩) :: kept },
        sid := sid, cid := 1, statusCode := 0,
        kernelCalls :=
          stale.map (fun p => KernelCall.release p.1 none) ++
            [KernelCall.install sid 1],
        socketEvents := [SockEvent.opened sock, SockEvent.handedToKernel sock] }
    | none =>
      { state := st, sid := 0, cid := 0, statusCode := failCode,
        kernelCalls := [],
        socketEvents := [SockEvent.opened sock, SockEvent.closed sock] }
  else
    { state := st, sid := 0, cid := 0, statusCode := failCode,
      kernelCalls := [],
      socketEvents := [SockEvent.opened sock, SockEvent.closed sock] }

/-- The result of a connection login. -/
structure ConnLoginResult where
  state : CtrlState
  cid : Nat
  statusCode : Nat
  kernelCalls : List KernelCall
  socketEvents : List SockEvent
deriving DecidableEq

/-- Replaces the record of session `sid`. -/
def updateSession (st : CtrlState) (sid : Nat) (s : SessionRec) : CtrlState :=
  { st with sessions := st.sessions.map (fun p => if p.1 = sid then (sid, s) else p) }

/-- Modelled from the spec: the body of `iSCSILoginConnection` is not under
`src/`.  Adds a connection to an existing session (MC/S) with the
smallest unused CID; unknown SID is a `StateError`; on negotiation
failure no record is retained and the socket is closed. -/
def iSCSILoginConnection (st : CtrlState) (sid : Nat) (portalKey : String)
    (sock : Nat) (outcome : Bool) (failCode : Nat) : ConnLoginResult :=
  match st.sessions.lookup sid with
  | none =>
    { state := st, cid := 0, statusCode := failCode, kernelCalls := [],
      socketEvents := [] }
  | some sess =>
    if outcome then
      match allocCid (sess.connections.map Prod.fst) with
      | some cid =>
        { state := updateSession st sid
            { sess with connections := (cid, ⟨portalKey, sock⟩) :: sess.connections },
          cid := cid, statusCode := 0,
          kernelCalls := [KernelCall.install sid cid],
          socketEvents := [SockEvent.opened sock, SockEvent.handedToKernel sock] }
      | none =>
        { state := st, cid := 0, statusCode := failCode, kernelCalls := [],
          socketEvents := [SockEvent.opened sock, SockEvent.closed sock] }
    else
      { state := st, cid := 0, statusCode := failCode, kernelCalls := [],
        socketEvents := [SockEvent.opened sock, SockEvent.closed sock] }

/-- The result of a logout operation. -/
structure LogoutResult where
  state : CtrlState
  statusCode : Nat
  kernelCalls : List KernelCall
deriving DecidableEq

/-- Modelled from the spec: the body of `iSCSILogoutConnection` is not
under `src/`.  Removes a non-leading connection from a session and
releases it in the kernel.  Unknown SID/CID is a `StateError`; removing
the leading connection is rejected as a `StateError` since the
invariant `leadingCid ∈ connections` holds in every reachable state
(closing the whole session is `iSCSILogoutSession`). -/
def iSCSILogoutConnection (st : CtrlState) (sid cid : Nat) : LogoutResult :=
  match st.sessions.lookup sid with
  | none => { state := st, statusCode := 22, kernelCalls := [] }
  | some sess =>
    if cid = sess.leadingCid ∨ sess.connections.lookup cid = none then
      { state := st, statusCode := 22, kernelCalls := [] }
    else
      { state := updateSession st sid
          { sess with connections := sess.connections.filter (fun p => !(p.1 == cid)) },
        statusCode := 0, kernelCalls := [KernelCall.release sid (some cid)] }

/-- Modelled from the spec: the body of `iSCSILogoutSession` is not under
`src/`.  Issues the close-session logout, instructs the kernel to
release all of the session's sockets and frees all records; unknown SID
is a `StateError`. -/
def iSCSILogoutSession (st : CtrlState) (sid : Nat) : LogoutResult :=
  match st.sessions.lookup sid with
  | none => { state := st, statusCode := 22, kernelCalls := [] }
  | some _ =>
    { state := { st with sessions := st.sessions.filter (fun p => !(p.1 == sid)) },
      statusCode := 0, kernelCalls := [KernelCall.release sid none] }

/-- The reconnect descriptor recorded for one session. -/
def descOfSession (sid : Nat) (s : SessionRec) : ReconnectDesc :=
  { sid := sid, iqn := s.iqn,
    leadingPortal := ((s.connections.lookup s.leadingCid).getD ⟨"", 0⟩).portalKey,
    extraPortals := (s.connections.filter (fun p => !(p.1 == s.leadingCid))).map
      (fun p => p.2.portalKey) }

/-- Modelled from the spec: the body of `iSCSIPrepareForSystemSleep` is
not under `src/`.  Issues kernel `quiesce`, records the minimal
reconnect descriptor of every session, and closes all sockets without
Logout. -/
def iSCSIPrepareForSystemSleep (st : CtrlState) :
    CtrlState × List KernelCall × List SockEvent :=
  ({ st with
      sessions := [],
      sleepDescs := st.sessions.map (fun p => descOfSession p.1 p.2) },
   [KernelCall.quiesce],
   st.sessions.flatMap (fun p => p.2.connections.map
     (fun q => SockEvent.closed q.2.socket)))

/-- The outcome of restoring a single reconnect descriptor. -/
structure RestoreStep where
  state : CtrlState
  kernelCalls : List KernelCall
  assignedSid : Nat
  failed : Bool
  connAttempts : Nat
deriving DecidableEq

/-- One additional-connection relogin of the wake restoration of a
session with identifier `sid`, accumulating state and kernel calls. -/
def restoreConnStep (sid : Nat) (acc : CtrlState × List KernelCall)
    (pk : String) : CtrlState × List KernelCall :=
  let c := iSCSILoginConnection acc.1 sid pk 0 true 5
  (c.state, acc.2 ++ c.kernelCalls)

/-- Modelled from the spec: restoration of one stored descriptor by
`iSCSIRestoreForSystemWake`: re-runs `iSCSILoginSession` (requesting the
original SID) and, on success, `iSCSILoginConnection` for each
additional portal; on failure the session is recorded as `Dormant`
(its descriptor is retained on the dormant list).  `ok` abstracts the
relogin outcome. -/
def restoreDesc (st : CtrlState) (d : ReconnectDesc) (ok : Bool) : RestoreStep :=
  let r := iSCSILoginSession st d.iqn d.leadingPortal false 0 ok 5 (some d.sid)
  if r.statusCode = 0 then
    let z := d.extraPortals.foldl (restoreConnStep r.sid) (r.state, r.kernelCalls)
    { state := z.1, kernelCalls := z.2, assignedSid := r.sid, failed := false,
      connAttempts := d.extraPortals.length }
  else
    { state := { st with dormantDescs := st.dormantDescs ++ [d] },
      kernelCalls := [], assignedSid := 0, failed := true, connAttempts := 0 }

/-- The accumulator of the wake restoration loop. -/
structure WakeAcc where
  state : CtrlState
  kernelCalls : List KernelCall
  sessionLogins : Nat
  connLogins : Nat
  anyFailed : Bool
deriving DecidableEq

/-- One iteration of the wake restoration loop. -/
def wakeStep (okF : ReconnectDesc → Bool) (acc : WakeAcc) (d : ReconnectDesc) :
    WakeAcc :=
  let r := restoreDesc acc.state d (okF d)
  { state := r.state, kernelCalls := acc.kernelCalls ++ r.kernelCalls,
    sessionLogins := acc.sessionLogins + 1,
    connLogins := acc.connLogins + r.connAttempts,
    anyFailed := acc.anyFailed || r.failed }

/-- The result of `iSCSIRestoreForSystemWake`. -/
structure WakeResult where
  state : CtrlState
  kernelCalls : List KernelCall
  sessionLogins : Nat
  connLogins : Nat
  errno : Nat
deriving DecidableEq

/-- Modelled from the spec: the body of `iSCSIRestoreForSystemWake` is not
under `src/`.  Processes every stored reconnect descriptor in order —
failures are recorded and surfaced but do not stop the loop — and calls
kernel `resume` after all restorations.  `okF` abstracts each
descriptor's relogin outcome. -/
def iSCSIRestoreForSystemWake (st : CtrlState) (okF : ReconnectDesc → Bool) :
    WakeResult :=
  let z := st.sleepDescs.foldl (wakeStep okF)
    ⟨{ st with sleepDescs := [] }, [], 0, 0, false⟩
  { state := z.state, kernelCalls := z.kernelCalls ++ [KernelCall.resume],
    sessionLogins := z.sessionLogins, connLogins := z.connLogins,
    errno := if z.anyFailed then 5 else 0 }

/-- The reserved invalid session identifier. -/
def kInvalidSessionId : Nat := 0

/-- The reserved invalid connection identifier. -/
def kInvalidConnectionId : Nat := 0

/-- Modelled from the spec: the body of `iSCSIGetSessionIdForTarget` is
not under `src/`.  Resolves a target IQN to the SID of its active
normal session; discovery sessions are not indexed by IQN; returns the
reserved invalid SID when there is none. -/
def iSCSIGetSessionIdForTarget (st : CtrlState) (targetIQN : String) : Nat :=
  match st.sessions.find? (fun p => p.2.iqn == targetIQN && !p.2.discovery) with
  | some p => p.1
  | none => kInvalidSessionId

/-- Modelled from the spec: the body of `iSCSIGetConnectionIdForPortal` is
not under `src/`.  Resolves a portal to the CID of the matching
connection of session `sid`; returns the reserved invalid CID when
there is no match. -/
def iSCSIGetConnectionIdForPortal (st : CtrlState) (sid : Nat)
    (portalKey : String) : Nat :=
  match st.sessions.lookup sid with
  | none => kInvalidConnectionId
  | some sess =>
    match sess.connections.find? (fun p => p.2.portalKey == portalKey) with
    | some p => p.1
    | none => kInvalidConnectionId

/-- The reachable controller states: `initCtrl` and everything produced
by the public operations, for every input and every outcome. -/
inductive Reachable : CtrlState → Prop
  | init : Reachable initCtrl
  | loginSess {st} (iqn pk : String) (disc : Bool) (sock : Nat) (ok : Bool)
      (code : Nat) (reuse : Option Nat) : Reachable st →
      Reachable (iSCSILoginSession st iqn pk disc sock ok code reuse).state
  | loginConn {st} (sid : Nat) (pk : String) (sock : Nat) (ok : Bool)
      (code : Nat) : Reachable st →
      Reachable (iSCSILoginConnection st sid pk sock ok code).state
  | logoutConn {st} (sid cid : Nat) : Reachable st →
      Reachable (iSCSILogoutConnection st sid cid).state
  | logoutSess {st} (sid : Nat) : Reachable st →
      Reachable (iSCSILogoutSession st sid).state
  | sleep {st} : Reachable st → Reachable (iSCSIPrepareForSystemSleep st).1
  | wake {st} (okF : ReconnectDesc → Bool) : Reachable st →
      Reachable (iSCSIRestoreForSystemWake st okF).state

/-- The session-record invariant of the claim, plus positivity of the
identifiers (0 is reserved as invalid). -/
def SessionInv (s : SessionRec) : Prop :=
  (s.connections ≠ [] ↔ s.sessState ≠ SessState.loggedOut) ∧
    s.leadingCid ∈ s.connections.map Prod.fst ∧
    ∀ q ∈ s.connections, 1 ≤ q.1

/-- The controller invariant: every session record satisfies
`SessionInv` and holds a valid (nonzero) SID. -/
def CtrlInv (st : CtrlState) : Prop :=
  ∀ p ∈ st.sessions, SessionInv p.2 ∧ 1 ≤ p.1

/-! ## Initialization protocol (iSCSIInitialize / iSCSICleanup) -/

/-- The calls of the public interface, abstracted to the three groups
relevant to the initialization protocol: `iSCSIInitialize`,
`iSCSICleanup`, and every other session-related operation (login,
logout, discovery, sleep/wake, lookups), tagged by an index. -/
inductive ApiCall
  | initCall
  | cleanupCall
  | sessionOp (tag : Nat)
deriving DecidableEq

/-- Modelled from the spec: the valid call sequences of the interface.
`iSCSISession.h` states that `iSCSIInitialize` "will initialize the
kernel layer after which other session-related functions may be
called", and that `iSCSICleanup` closes the kernel connections and
stops processing; so from the uninitialized state only `initialize` is
valid, and from the initialized state session operations and `cleanup`
are.  `ValidFrom inited tr`: `tr` is a valid continuation when the
controller is (un)initialized. -/
inductive ValidFrom : Bool → List ApiCall → Prop
  | nil {b} : ValidFrom b []
  | doInit {tr} : ValidFrom true tr →
      ValidFrom false (ApiCall.initCall :: tr)
  | doSessionOp {tr} (tag : Nat) : ValidFrom true tr →
      ValidFrom true (ApiCall.sessionOp tag :: tr)
  | doShutdown {tr} : ValidFrom false tr →
      ValidFrom true (ApiCall.cleanupCall :: tr)

/-- Position `i` of trace `tr` is preceded by an `initialize` with no
`cleanup` in between. -/
def InitPrecedes (tr : List ApiCall) (i : Nat) : Prop :=
  ∃ j < i, tr[j]? = some ApiCall.initCall ∧
    ∀ k < i, j < k → tr[k]? ≠ some ApiCall.cleanupCall

/-- No `cleanup` occurs before position `i` of trace `tr`. -/
def NoCleanupBefore (tr : List ApiCall) (i : Nat) : Prop :=
  ∀ k < i, tr[k]? ≠ some ApiCall.cleanupCall

/-! # Theorems -/

set_option maxRecDepth 20000

/-- Characterization of `exchangeAdvances`. -/
theorem exchangeAdvances_eq_true {st : LoginStage} {ex : LoginExchange} :
    exchangeAdvances st ex = true ↔
      ex.reqT = true ∧ ex.rspT = true ∧ ex.reqC = false ∧ ex.rspC = false ∧
        ∃ ns, nextStage st = some ns ∧ ex.reqNsg = stageCode ns ∧
          ex.rspNsg = stageCode ns := by
  cases st <;>
    simp [exchangeAdvances, nextStage, Bool.and_eq_true, Bool.not_eq_true',
      and_assoc]

/-- The legal next stage is always a different stage. -/
theorem nextStage_ne {st ns : LoginStage} (h : nextStage st = some ns) :
    ns ≠ st := by
  cases st <;> simp [nextStage] at h <;> simp [← h]

/-- C1: the login state machine advances to the next stage iff both peers
set `T=1` with matching `NSG` in the same (well-formed) exchange; stage
transitions are monotonic `Security → Operational → FullFeature` in the
CSG encoding; and no single exchange ever takes `Security` directly to
`FullFeature`. -/
theorem loginStep_advances_iff_mutual_transit :
    (∀ st ex, WfExchange st ex →
        (loginStep st ex ≠ st ↔
          ex.reqT = true ∧ ex.rspT = true ∧ ex.rspNsg = ex.reqNsg)) ∧
    (∀ st ex, stageCode st ≤ stageCode (loginStep st ex)) ∧
    (∀ ex, loginStep LoginStage.securityNegotiation ex ≠
      LoginStage.fullFeature) := by
  refine ⟨?_, ?_, ?_⟩
  · intro st ex hwf
    obtain ⟨hreqC, hrspC, hreqT⟩ := hwf
    constructor
    · intro hne
      by_cases hadv : exchangeAdvances st ex = true
      · obtain ⟨h1, h2, _, _, ns, hns, hr1, hr2⟩ :=
          exchangeAdvances_eq_true.mp hadv
        exact ⟨h1, h2, hr2.trans hr1.symm⟩
      · simp [loginStep, hadv] at hne
    · rintro ⟨h1, h2, h3⟩
      obtain ⟨hns, hnsg⟩ := hreqT h1
      obtain ⟨ns, hns'⟩ := Option.ne_none_iff_exists'.mp hns
      have hadv : exchangeAdvances st ex = true := by
        refine exchangeAdvances_eq_true.mpr
          ⟨h1, h2, ?_, ?_, ns, hns', ?_, ?_⟩
        · cases hc : ex.reqC
          · rfl
          · exact absurd h1 (by simp [hreqC hc])
        · cases hc : ex.rspC
          · rfl
          · exact absurd h2 (by simp [hrspC hc])
        · simpa [hns'] using hnsg
        · rw [h3]; simpa [hns'] using hnsg
      simp only [loginStep, hadv, if_true, hns', Option.getD_some]
      exact nextStage_ne hns'
  · intro st ex
    by_cases hadv : exchangeAdvances st ex = true <;>
      cases st <;> simp [loginStep, hadv, nextStage, stageCode]
  · intro ex
    by_cases hadv : exchangeAdvances LoginStage.securityNegotiation ex = true <;>
      simp [loginStep, hadv, nextStage]

/-- Witness for C1: a concrete well-formed exchange on which the iff
applies — mutual `T=1` with matching `NSG=1` from Security advances. -/
theorem loginStep_advances_iff_mutual_transit_witness :
    loginStep LoginStage.securityNegotiation ⟨true, false, 1, true, false, 1⟩ ≠
      LoginStage.securityNegotiation :=
  (loginStep_advances_iff_mutual_transit.1 LoginStage.securityNegotiation
    ⟨true, false, 1, true, false, 1⟩ (by constructor <;> simp [nextStage, stageCode])).mpr
    (by simp)

/-- Reading back the entry just written for key `k`. -/
theorem storeEntry_storeUpdate (st : ParamStore) (k : String) (e : ParamEntry) :
    storeEntry (storeUpdate st k e) k = e := by
  simp [storeEntry, storeUpdate, List.lookup]

/-- C2: for every key whose result function is `Minimum`, the finalized
value is at most the minimum of the two proposals; for `MaxBurstLength`
with proposals 262144 and 65536 the Parameter Store finalizes exactly
65536. -/
theorem storeFinalize_minimum_le_min :
    (∀ (st : ParamStore) (k : String) (a b : Nat),
        resultFunctionOf k = some ResultFunction.minimum →
        ∀ v ∈ storeFinalize (storeReceive (storePropose st k a) k b) k,
          v ≤ min a b) ∧
    storeFinalize (storeReceive (storePropose [] ("MaxBurstLength") 262144)
        ("MaxBurstLength") 65536) ("MaxBurstLength") = some 65536 := by
  constructor
  · intro st k a b hk v hv
    simp only [storeReceive, storePropose, storeEntry_storeUpdate,
      storeFinalize, hk, applyNumericResult] at hv
    simp only [Option.mem_def, Option.some.injEq] at hv
    omega
  · decide

/-- Witness for C2: the hypotheses of the universal part hold at the
`MaxBurstLength` scenario, and the finalized value is bounded there. -/
theorem storeFinalize_minimum_le_min_witness :
    65536 ∈ storeFinalize (storeReceive (storePropose [] ("MaxBurstLength")
        262144) ("MaxBurstLength") 65536) ("MaxBurstLength") ∧
      65536 ≤ min 262144 65536 :=
  ⟨by decide,
    storeFinalize_minimum_le_min.1 [] ("MaxBurstLength") 262144 65536
      (by decide) 65536 (by decide)⟩

/-- Every byte of a little-endian rendering is below 256. -/
theorem mem_natLEBytes_lt {x v n : Nat} (h : x ∈ natLEBytes v n) : x < 256 := by
  simp only [natLEBytes, List.mem_map, List.mem_range] at h
  obtain ⟨j, _, rfl⟩ := h
  exact Nat.mod_lt _ (by omega)

/-- Every byte of an MD5 digest is below 256. -/
theorem md5Digest_mem_lt {b : Nat} {msg : List Nat} (h : b ∈ md5Digest msg) :
    b < 256 := by
  simp only [md5Digest, List.mem_append] at h
  rcases h with ((h | h) | h) | h <;> exact mem_natLEBytes_lt h

/-- `hexDigit` of a value below 16 is a lowercase hexadecimal digit. -/
theorem hexDigit_isLowerHex : ∀ n < 16, IsLowerHexChar (hexDigit n) := by decide

/-- The hex rendering of a byte string consists of lowercase hex digits. -/
theorem bytesToHex_chars {bs : List Nat} (hb : ∀ b ∈ bs, b < 256) :
    ∀ c ∈ (bytesToHex bs).toList, IsLowerHexChar c := by
  intro c hc
  have hmk : (bytesToHex bs).toList =
      bs.flatMap (fun b => [hexDigit (b / 16), hexDigit (b % 16)]) := rfl
  rw [hmk, List.mem_flatMap] at hc
  obtain ⟨b, hbmem, hcb⟩ := hc
  have hblt := hb b hbmem
  simp only [List.mem_cons, List.not_mem_nil, or_false] at hcb
  rcases hcb with h | h
  · exact h ▸ hexDigit_isLowerHex (b / 16) (by omega)
  · exact h ▸ hexDigit_isLowerHex (b % 16) (by omega)

/-- C4: the initiator's CHAP response `CHAP_R` equals the MD5 digest of
`CHAP_I || secret || CHAP_C` rendered as lowercase hexadecimal; at the
scenario input (`CHAP_I = 0x81`, secret `"0123456789abcdef"`, challenge
`0x00…0f`) the response is the actual MD5 digest of those 33 bytes. -/
theorem chapReply_response_is_md5_hex :
    (∀ (name : String) (secret : List Nat) (chapI : Nat) (chapC : List Nat),
        (chapReplyKeys name secret chapI chapC).lookup ("CHAP_R") =
          some (bytesToHex (md5Digest (chapI % 256 :: (secret ++ chapC))))) ∧
    (∀ (secret : List Nat) (chapI : Nat) (chapC : List Nat),
        ∀ c ∈ (chapResponseHex chapI secret chapC).toList, IsLowerHexChar c) ∧
    chapResponseHex 129 chapScenarioSecret chapScenarioChallenge =
      "fd04f17aa418ae4c3dd7feab603c4e58" := by
  refine ⟨?_, ?_, ?_⟩
  · intro name secret chapI chapC
    simp [chapReplyKeys, chapResponseHex, List.lookup]
  · intro secret chapI chapC
    exact bytesToHex_chars (fun b hb => md5Digest_mem_lt hb)
  · decide

/-- Witness for C4: applying the lowercase-hex conjunct at the scenario
input: the first character of the scenario response, `f` (102), is a
lowercase hexadecimal digit. -/
theorem chapReply_response_is_md5_hex_witness :
    IsLowerHexChar (Char.ofNat 102) :=
  chapReply_response_is_md5_hex.2.1 chapScenarioSecret 129
    chapScenarioChallenge (Char.ofNat 102) (by decide)

/-- The smallest-unused search is sound: the result is not held, lies in
the scanned window, and everything below it in the window is held. -/
theorem firstFree_spec (held : List Nat) :
    ∀ fuel n s, firstFree held fuel n = some s →
      held.contains s = false ∧ n ≤ s ∧ s < n + fuel ∧
        ∀ t, n ≤ t → t < s → held.contains t = true := by
  intro fuel
  induction fuel with
  | zero => intro n s h; simp [firstFree] at h
  | succ f ih =>
    intro n s h
    rw [firstFree] at h
    by_cases hc : held.contains n = true
    · rw [if_pos hc] at h
      obtain ⟨h1, h2, h3, h4⟩ := ih (n + 1) s h
      refine ⟨h1, by omega, by omega, fun t ht1 ht2 => ?_⟩
      by_cases htn : t = n
      · rwa [htn]
      · exact h4 t (by omega) ht2
    · rw [if_neg hc] at h
      obtain rfl : n = s := by injection h
      exact ⟨by simpa using hc, Nat.le_refl n, by omega, fun t ht1 ht2 => by omega⟩

/-- C5: `allocSid` returns the smallest SID in `1..65535` not currently
held and never one that is held; after `freeSid(s)` the SID `s` may be
reissued; and the first `iSCSILoginSession` on a fresh controller
yields `SID = 1` and `CID = 1`. -/
theorem allocSid_smallest_unused_and_reissuable :
    (∀ (held : List Nat) (s : Nat), allocSid held = some s →
        held.contains s = false ∧ 1 ≤ s ∧ s ≤ 65535 ∧
          ∀ t, 1 ≤ t → t < s → held.contains t = true) ∧
    (∀ (held : List Nat) (s : Nat), allocSid held = some s →
        allocSid (freeSid (s :: held) s) = some s) ∧
    (∀ (iqn pk : String) (sock code : Nat),
        (iSCSILoginSession initCtrl iqn pk false sock true code none).sid = 1 ∧
        (iSCSILoginSession initCtrl iqn pk false sock true code none).cid = 1) := by
  refine ⟨?_, ?_, ?_⟩
  · intro held s h
    obtain ⟨h1, h2, h3, h4⟩ := firstFree_spec held 65535 1 s h
    exact ⟨h1, h2, by omega, h4⟩
  · intro held s h
    simpa [freeSid, List.erase_cons_head] using h
  · intro iqn pk sock code
    exact ⟨rfl, rfl⟩

/-- Witness for C5: allocation on the empty registry yields SID 1, and
after allocating and freeing it, SID 1 is reissued. -/
theorem allocSid_smallest_unused_and_reissuable_witness :
    allocSid (freeSid (1 :: []) 1) = some 1 :=
  allocSid_smallest_unused_and_reissuable.2.1 [] 1 (by decide)

/-- Splitting at the first occurrence of `b` inverts appending `b`. -/
theorem splitAtByte_append {b : Nat} {ys : List Nat} :
    ∀ {xs : List Nat}, b ∉ xs → splitAtByte b (xs ++ b :: ys) = some (xs, ys) := by
  intro xs
  induction xs with
  | nil => intro _; simp [splitAtByte]
  | cons x xs ih =>
    intro h
    rw [List.mem_cons, not_or] at h
    have hxb : ¬ x = b := fun e => h.1 e.symm
    simp [splitAtByte, hxb, ih h.2]

/-- Parsing inverts serialization on well-formed keysets, for any
sufficient fuel. -/
theorem parseKeysAux_serializeKeys (ps : List TextPair) :
    ∀ fuel, (serializeKeys ps).length ≤ fuel →
      (∀ p ∈ ps, TextWfPair p) →
      parseKeysAux fuel (serializeKeys ps) = some ps := by
  induction ps with
  | nil =>
    intro fuel _ _
    cases fuel <;> simp [serializeKeys, parseKeysAux]
  | cons p ps ih =>
    intro fuel hlen hwf
    obtain ⟨hk61, hk0, hv0⟩ := hwf p (List.mem_cons_self p ps)
    have hser : serializeKeys (p :: ps) =
        (p.1 ++ 61 :: p.2) ++ 0 :: serializeKeys ps := by
      simp [serializeKeys, serializePair]
    have hne : serializeKeys (p :: ps) ≠ [] := by
      rw [hser]; simp
    cases fuel with
    | zero =>
      exfalso
      have hpos : 0 < (serializeKeys (p :: ps)).length :=
        List.length_pos.mpr hne
      omega
    | succ f =>
      rw [hser] at hne hlen ⊢
      rw [parseKeysAux, if_neg hne]
      have h0 : (0 : Nat) ∉ p.1 ++ 61 :: p.2 := by
        simp only [List.mem_append, List.mem_cons, not_or]
        exact ⟨hk0, by omega, hv0⟩
      rw [splitAtByte_append h0]
      dsimp only
      rw [splitAtByte_append hk61]
      dsimp only
      have hrest : (serializeKeys ps).length ≤ f := by
        rw [List.length_append, List.length_cons] at hlen
        omega
      rw [ih f hrest (fun q hq => hwf q (List.mem_cons_of_mem p hq))]
      simp

/-- C7 (amended): for every admissible keyset whose keys additionally
contain neither `=` nor NUL and whose values contain no NUL, parsing
the Text Negotiator's serialization yields back exactly the keyset. -/
theorem parseKeys_serializeKeys_roundtrip (ps : List TextPair)
    (_hadm : ∀ p ∈ ps, AdmissiblePair p) (hwf : ∀ p ∈ ps, TextWfPair p) :
    parseKeys (serializeKeys ps) = some ps :=
  parseKeysAux_serializeKeys ps (serializeKeys ps).length (Nat.le_refl _) hwf

/-- Counterexample for C7 as stated: the keyset with the single pair
`("a=b", "c")` is admissible by the claim's length bounds alone, yet
parsing its serialization yields `("a", "b=c")`, not the keyset. -/
theorem parseKeys_serializeKeys_not_id_on_admissible :
    (∀ p ∈ [(([97, 61, 98], [99]) : TextPair)], AdmissiblePair p) ∧
    parseKeys (serializeKeys [([97, 61, 98], [99])]) ≠
      some [([97, 61, 98], [99])] := by decide

/-- Witness for C7 (amended): a concrete well-formed keyset
(`Ma=56`, i.e. key `[77, 97]`, value `[53, 54]`) round-trips. -/
theorem parseKeys_serializeKeys_roundtrip_witness :
    parseKeys (serializeKeys [(([77, 97], [53, 54]) : TextPair)]) =
      some [([77, 97], [53, 54])] :=
  parseKeys_serializeKeys_roundtrip [([77, 97], [53, 54])] (by decide) (by decide)

/-- C3: whenever `iSCSILoginSession` fails during login negotiation, the
controller retains no session and no connection record (its state is
unchanged), no kernel call is made, and the socket opened for the
attempt is closed; in particular the CHAP wrong-secret scenario
(`loginStatusCode = 0x0201 = 513`) surfaces the code with the state
unchanged. -/
theorem loginSession_failure_retains_nothing :
    (∀ (st : CtrlState) (iqn pk : String) (sock code : Nat)
        (reuse : Option Nat),
        (iSCSILoginSession st iqn pk false sock false code reuse).state = st ∧
        (iSCSILoginSession st iqn pk false sock false code reuse).sid = 0 ∧
        (iSCSILoginSession st iqn pk false sock false code reuse).cid = 0 ∧
        (iSCSILoginSession st iqn pk false sock false code
          reuse).statusCode = code ∧
        (iSCSILoginSession st iqn pk false sock false code
          reuse).kernelCalls = [] ∧
        (iSCSILoginSession st iqn pk false sock false code
          reuse).socketEvents =
          [SockEvent.opened sock, SockEvent.closed sock]) ∧
    ((iSCSILoginSession initCtrl ("iqn.1991-05.com.example:tgt") ("portal")
        false 7 false 513 none).statusCode = 513 ∧
      (iSCSILoginSession initCtrl ("iqn.1991-05.com.example:tgt") ("portal")
        false 7 false 513 none).state = initCtrl) :=
  ⟨fun _ _ _ _ _ _ => ⟨rfl, rfl, rfl, rfl, rfl, rfl⟩, rfl, rfl⟩

/-- A successful association-list lookup locates a member. -/
theorem lookup_mem {α β : Type} [BEq α] [LawfulBEq α] {l : List (α × β)}
    {k : α} {v : β} (h : l.lookup k = some v) : (k, v) ∈ l := by
  induction l with
  | nil => cases h
  | cons p l ih =>
    obtain ⟨k', v'⟩ := p
    rw [List.lookup] at h
    by_cases hk : (k == k') = true
    · rw [hk] at h
      dsimp only at h
      obtain rfl : v' = v := by injection h
      obtain rfl : k = k' := eq_of_beq hk
      exact List.mem_cons_self _ _
    · rw [Bool.eq_false_iff.mpr hk] at h
      dsimp only at h
      exact List.mem_cons_of_mem _ (ih h)

/-- A picked SID is in range `1..65535`. -/
theorem pickSid_range {st : CtrlState} {reuse : Option Nat} {s : Nat}
    (h : pickSid st reuse = some s) : 1 ≤ s ∧ s ≤ 65535 := by
  have halloc : ∀ t, allocSid (heldSids st) = some t → 1 ≤ t ∧ t ≤ 65535 := by
    intro t ht
    obtain ⟨_, h2, h3, _⟩ := firstFree_spec (heldSids st) 65535 1 t ht
    omega
  cases reuse with
  | none => exact halloc s (by simpa [pickSid] using h)
  | some r =>
    simp only [pickSid] at h
    by_cases hc : 1 ≤ r ∧ r ≤ 65535 ∧ ¬(heldSids st).contains r = true
    · rw [if_pos hc] at h
      obtain rfl : r = s := by injection h
      exact ⟨hc.1, hc.2.1⟩
    · rw [if_neg hc] at h
      exact halloc s h

/-- `iSCSILoginSession` preserves the controller invariant. -/
theorem CtrlInv_loginSession {st : CtrlState} (h : CtrlInv st)
    (iqn pk : String) (disc : Bool) (sock : Nat) (ok : Bool) (code : Nat)
    (reuse : Option Nat) :
    CtrlInv (iSCSILoginSession st iqn pk disc sock ok code reuse).state := by
  unfold iSCSILoginSession
  cases ok with
  | false => exact h
  | true =>
    cases hp : pickSid st reuse with
    | none => simp only [hp]; exact h
    | some sid =>
      simp only [hp]
      intro p hmem
      rcases List.mem_cons.mp hmem with rfl | hmem'
      · exact ⟨⟨by simp, by simp, by simp⟩, (pickSid_range hp).1⟩
      · cases disc with
        | true => exact h p hmem'
        | false => exact h p (List.mem_filter.mp hmem').1

/-- An allocated CID is in range `1..65535`. -/
theorem allocCid_range {cids : List Nat} {c : Nat}
    (h : allocCid cids = some c) : 1 ≤ c ∧ c ≤ 65535 := by
  obtain ⟨_, h2, h3, _⟩ := firstFree_spec cids 65535 1 c h
  omega

/-- `iSCSILoginConnection` preserves the controller invariant. -/
theorem CtrlInv_loginConnection {st : CtrlState} (h : CtrlInv st)
    (sid : Nat) (pk : String) (sock : Nat) (ok : Bool) (code : Nat) :
    CtrlInv (iSCSILoginConnection st sid pk sock ok code).state := by
  unfold iSCSILoginConnection
  cases hl : st.sessions.lookup sid with
  | none => simp only [hl]; exact h
  | some sess =>
    simp only [hl]
    cases ok with
    | false => exact h
    | true =>
      cases hc : allocCid (sess.connections.map Prod.fst) with
      | none => simp only [hc]; exact h
      | some cid =>
        simp only [hc]
        obtain ⟨⟨hiff, hlead, hcids⟩, hspos⟩ := h (sid, sess) (lookup_mem hl)
        intro p hmem
        obtain ⟨q, hq, hfq⟩ := List.mem_map.mp hmem
        by_cases hqs : q.1 = sid
        · rw [← hfq, if_pos hqs]
          have hconns_ne : sess.connections ≠ [] := by
            intro he
            rw [he] at hlead
            exact List.not_mem_nil _ hlead
          have hstate := hiff.mp hconns_ne
          refine ⟨⟨⟨fun _ => hstate, fun _ => List.cons_ne_nil _ _⟩,
            ?_, ?_⟩, ?_⟩
          · simp only [List.map_cons, List.mem_cons]
            exact Or.inr hlead
          · intro q' hq'
            rcases List.mem_cons.mp hq' with rfl | hq''
            · exact (allocCid_range hc).1
            · exact hcids q' hq''
          · exact hqs ▸ h q hq |>.2
        · rw [← hfq, if_neg hqs]
          exact h q hq

/-- `iSCSILogoutConnection` preserves the controller invariant. -/
theorem CtrlInv_logoutConnection {st : CtrlState} (h : CtrlInv st)
    (sid cid : Nat) : CtrlInv (iSCSILogoutConnection st sid cid).state := by
  unfold iSCSILogoutConnection
  cases hl : st.sessions.lookup sid with
  | none => simp only [hl]; exact h
  | some sess =>
    simp only [hl]
    by_cases hgate : cid = sess.leadingCid ∨ sess.connections.lookup cid = none
    · rw [if_pos hgate]; exact h
    · rw [if_neg hgate]
      push_neg at hgate
      obtain ⟨hne, _⟩ := hgate
      obtain ⟨⟨hiff, hlead, hcids⟩, _⟩ := h (sid, sess) (lookup_mem hl)
      intro p hmem
      obtain ⟨q, hq, hfq⟩ := List.mem_map.mp hmem
      by_cases hqs : q.1 = sid
      · rw [← hfq, if_pos hqs]
        obtain ⟨qc, hqc, hqcl⟩ := List.mem_map.mp hlead
        have hqcf : qc ∈ sess.connections.filter (fun p => !(p.1 == cid)) := by
          refine List.mem_filter.mpr ⟨hqc, ?_⟩
          simp only [Bool.not_eq_true', beq_eq_false_iff_ne, ne_eq]
          rw [hqcl]
          exact fun e => hne e.symm
        have hleadf : sess.leadingCid ∈
            (sess.connections.filter (fun p => !(p.1 == cid))).map Prod.fst :=
          List.mem_map.mpr ⟨qc, hqcf, hqcl⟩
        have hconns_ne : sess.connections ≠ [] := by
          intro he
          rw [he] at hqc
          exact List.not_mem_nil _ hqc
        have hfilter_ne :
            sess.connections.filter (fun p => !(p.1 == cid)) ≠ [] := by
          intro he
          rw [he] at hqcf
          exact List.not_mem_nil _ hqcf
        refine ⟨⟨⟨fun _ => hiff.mp hconns_ne, fun _ => hfilter_ne⟩, hleadf,
          fun q' hq' => hcids q' (List.mem_filter.mp hq').1⟩,
          hqs ▸ (h q hq).2⟩
      · rw [← hfq, if_neg hqs]
        exact h q hq

/-- `iSCSILogoutSession` preserves the controller invariant. -/
theorem CtrlInv_logoutSession {st : CtrlState} (h : CtrlInv st) (sid : Nat) :
    CtrlInv (iSCSILogoutSession st sid).state := by
  unfold iSCSILogoutSession
  cases hl : st.sessions.lookup sid with
  | none => simp only [hl]; exact h
  | some sess =>
    simp only [hl]
    intro p hmem
    exact h p (List.mem_filter.mp hmem).1

/-- `iSCSIPrepareForSystemSleep` preserves the controller invariant. -/
theorem CtrlInv_sleep {st : CtrlState} (_h : CtrlInv st) :
    CtrlInv (iSCSIPrepareForSystemSleep st).1 :=
  fun p hp => (List.not_mem_nil p hp).elim

/-- The additional-connection relogin fold preserves the invariant. -/
theorem CtrlInv_restoreConnFold (sid : Nat) (portals : List String) :
    ∀ acc : CtrlState × List KernelCall, CtrlInv acc.1 →
      CtrlInv (portals.foldl (restoreConnStep sid) acc).1 := by
  induction portals with
  | nil => intro acc h; exact h
  | cons pk portals ih =>
    intro acc h
    rw [List.foldl_cons]
    exact ih _ (CtrlInv_loginConnection h sid pk 0 true 5)

/-- `restoreDesc` preserves the controller invariant. -/
theorem CtrlInv_restoreDesc {st : CtrlState} (h : CtrlInv st)
    (d : ReconnectDesc) (ok : Bool) : CtrlInv (restoreDesc st d ok).state := by
  simp only [restoreDesc]
  split
  · exact CtrlInv_restoreConnFold _ _ _
      (CtrlInv_loginSession h d.iqn d.leadingPortal false 0 ok 5 (some d.sid))
  · intro p hmem
    exact h p hmem

/-- The wake restoration fold preserves the invariant. -/
theorem CtrlInv_wakeFold (okF : ReconnectDesc → Bool)
    (descs : List ReconnectDesc) :
    ∀ acc : WakeAcc, CtrlInv acc.state →
      CtrlInv ((descs.foldl (wakeStep okF) acc)).state := by
  induction descs with
  | nil => intro acc h; exact h
  | cons d descs ih =>
    intro acc h
    rw [List.foldl_cons]
    exact ih _ (CtrlInv_restoreDesc h d (okF d))

/-- `iSCSIRestoreForSystemWake` preserves the controller invariant. -/
theorem CtrlInv_wake {st : CtrlState} (h : CtrlInv st)
    (okF : ReconnectDesc → Bool) :
    CtrlInv (iSCSIRestoreForSystemWake st okF).state := by
  simp only [iSCSIRestoreForSystemWake]
  exact CtrlInv_wakeFold okF st.sleepDescs _ (fun p hp => h p hp)

/-- Every reachable controller state satisfies the invariant. -/
theorem CtrlInv_reachable {st : CtrlState} (h : Reachable st) : CtrlInv st := by
  induction h with
  | init => exact fun p hp => (List.not_mem_nil p hp).elim
  | loginSess iqn pk disc sock ok code reuse _ ih =>
    exact CtrlInv_loginSession ih iqn pk disc sock ok code reuse
  | loginConn sid pk sock ok code _ ih =>
    exact CtrlInv_loginConnection ih sid pk sock ok code
  | logoutConn sid cid _ ih => exact CtrlInv_logoutConnection ih sid cid
  | logoutSess sid _ ih => exact CtrlInv_logoutSession ih sid
  | sleep _ ih => exact CtrlInv_sleep ih
  | wake okF _ ih => exact CtrlInv_wake ih okF

/-- C6: in every reachable state of the session controller, every session
record's connections map is non-empty iff its state is not `LoggedOut`,
and its leading CID is a key of its connections map; this is preserved
by every public operation since `Reachable` is closed under all of
them. -/
theorem reachable_session_invariant :
    ∀ st, Reachable st → ∀ p ∈ st.sessions,
      (p.2.connections ≠ [] ↔ p.2.sessState ≠ SessState.loggedOut) ∧
        p.2.leadingCid ∈ p.2.connections.map Prod.fst :=
  fun _ h p hp =>
    ⟨(CtrlInv_reachable h p hp).1.1, (CtrlInv_reachable h p hp).1.2.1⟩

/-- Witness for C6: the invariant holds for the session record created by
a successful login on the fresh controller, a reachable state. -/
theorem reachable_session_invariant_witness :
    ((⟨("iqn.a"), false, [(1, ⟨("p"), 3⟩)], 1,
        SessState.loggedIn⟩ : SessionRec).connections ≠ [] ↔
      (⟨("iqn.a"), false, [(1, ⟨("p"), 3⟩)], 1,
        SessState.loggedIn⟩ : SessionRec).sessState ≠ SessState.loggedOut) ∧
    (⟨("iqn.a"), false, [(1, ⟨("p"), 3⟩)], 1,
        SessState.loggedIn⟩ : SessionRec).leadingCid ∈
      ((⟨("iqn.a"), false, [(1, ⟨("p"), 3⟩)], 1,
        SessState.loggedIn⟩ : SessionRec).connections.map Prod.fst) :=
  reachable_session_invariant _
    (Reachable.loginSess ("iqn.a") ("p") false 3 true 0 none Reachable.init)
    (1, ⟨("iqn.a"), false, [(1, ⟨("p"), 3⟩)], 1, SessState.loggedIn⟩)
    (by decide)

/-- C10: for every target IQN with no active normal session the SID lookup
returns the reserved invalid SID 0, which is never a live SID; and for
every `(sid, portal)` with no matching connection the CID lookup
returns the reserved invalid CID 0, which is never a live CID. -/
theorem lookups_return_invalid_id :
    (∀ (st : CtrlState) (iqn : String), Reachable st →
        (∀ p ∈ st.sessions, p.2.discovery = false → p.2.iqn ≠ iqn) →
        iSCSIGetSessionIdForTarget st iqn = kInvalidSessionId ∧
          ∀ p ∈ st.sessions, p.1 ≠ kInvalidSessionId) ∧
    (∀ (st : CtrlState) (sid : Nat) (pk : String), Reachable st →
        (∀ p ∈ st.sessions, p.1 = sid → ∀ q ∈ p.2.connections,
          q.2.portalKey ≠ pk) →
        iSCSIGetConnectionIdForPortal st sid pk = kInvalidConnectionId ∧
          ∀ p ∈ st.sessions, ∀ q ∈ p.2.connections,
            q.1 ≠ kInvalidConnectionId) := by
  constructor
  · intro st iqn hreach hnone
    refine ⟨?_, ?_⟩
    · unfold iSCSIGetSessionIdForTarget
      have hfind : st.sessions.find?
          (fun p => p.2.iqn == iqn && !p.2.discovery) = none := by
        rw [List.find?_eq_none]
        intro p hp hcontra
        rw [Bool.and_eq_true, beq_iff_eq, Bool.not_eq_true'] at hcontra
        exact hnone p hp hcontra.2 hcontra.1
      rw [hfind]
    · intro p hp
      have hpos := (CtrlInv_reachable hreach p hp).2
      unfold kInvalidSessionId
      omega
  · intro st sid pk hreach hnone
    refine ⟨?_, ?_⟩
    · unfold iSCSIGetConnectionIdForPortal
      cases hl : st.sessions.lookup sid with
      | none => rfl
      | some sess =>
        have hfind : sess.connections.find?
            (fun p => p.2.portalKey == pk) = none := by
          rw [List.find?_eq_none]
          intro q hq hcontra
          rw [beq_iff_eq] at hcontra
          exact hnone (sid, sess) (lookup_mem hl) rfl q hq hcontra
        dsimp only
        rw [hfind]
    · intro p hp q hq
      have hpos := (CtrlInv_reachable hreach p hp).1.2.2 q hq
      unfold kInvalidConnectionId
      omega

/-- Witness for C10: on the fresh (reachable) controller, where no session
exists at all, both lookups return the reserved invalid identifiers. -/
theorem lookups_return_invalid_id_witness :
    iSCSIGetSessionIdForTarget initCtrl ("iqn.none") = kInvalidSessionId ∧
      iSCSIGetConnectionIdForPortal initCtrl 4 ("portal") =
        kInvalidConnectionId :=
  ⟨(lookups_return_invalid_id.1 initCtrl ("iqn.none") Reachable.init
      (fun p hp => (List.not_mem_nil p hp).elim)).1,
    (lookups_return_invalid_id.2 initCtrl 4 ("portal") Reachable.init
      (fun p hp => (List.not_mem_nil p hp).elim)).1⟩

/-- A session login never calls kernel `resume`. -/
theorem loginSession_calls_no_resume {st : CtrlState} {iqn pk : String}
    {disc : Bool} {sock : Nat} {ok : Bool} {code : Nat} {reuse : Option Nat} :
    ∀ c ∈ (iSCSILoginSession st iqn pk disc sock ok code reuse).kernelCalls,
      c ≠ KernelCall.resume := by
  unfold iSCSILoginSession
  cases ok with
  | false => intro c hc; cases hc
  | true =>
    cases hp : pickSid st reuse with
    | none => intro c hc; cases hc
    | some sid =>
      simp only [hp]
      intro c hc
      rcases List.mem_append.mp hc with hs | hs
      · obtain ⟨p, _, rfl⟩ := List.mem_map.mp hs
        exact fun h => KernelCall.noConfusion h
      · rw [List.mem_singleton.mp hs]
        exact fun h => KernelCall.noConfusion h

/-- A connection login never calls kernel `resume`. -/
theorem loginConnection_calls_no_resume {st : CtrlState} {sid : Nat}
    {pk : String} {sock : Nat} {ok : Bool} {code : Nat} :
    ∀ c ∈ (iSCSILoginConnection st sid pk sock ok code).kernelCalls,
      c ≠ KernelCall.resume := by
  unfold iSCSILoginConnection
  cases hl : st.sessions.lookup sid with
  | none => intro c hc; cases hc
  | some sess =>
    simp only [hl]
    cases ok with
    | false => intro c hc; cases hc
    | true =>
      cases hc' : allocCid (sess.connections.map Prod.fst) with
      | none => intro c hc; cases hc
      | some cid =>
        simp only [hc']
        intro c hc
        rw [List.mem_singleton.mp hc]
        exact fun h => KernelCall.noConfusion h

/-- The additional-connection relogin fold adds no kernel `resume`. -/
theorem restoreConnFold_no_resume (sid : Nat) (portals : List String) :
    ∀ acc : CtrlState × List KernelCall,
      (∀ c ∈ acc.2, c ≠ KernelCall.resume) →
      ∀ c ∈ (portals.foldl (restoreConnStep sid) acc).2,
        c ≠ KernelCall.resume := by
  induction portals with
  | nil => intro acc h; exact h
  | cons pk portals ih =>
    intro acc h
    rw [List.foldl_cons]
    refine ih _ ?_
    intro c hc
    rcases List.mem_append.mp hc with hs | hs
    · exact h c hs
    · exact loginConnection_calls_no_resume c hs

/-- Restoring one descriptor never calls kernel `resume`. -/
theorem restoreDesc_no_resume (st : CtrlState) (d : ReconnectDesc) (ok : Bool) :
    ∀ c ∈ (restoreDesc st d ok).kernelCalls, c ≠ KernelCall.resume := by
  simp only [restoreDesc]
  split
  · exact restoreConnFold_no_resume _ _ _
      (fun c hc => loginSession_calls_no_resume c hc)
  · intro c hc; cases hc

/-- A session login leaves the dormant list unchanged. -/
theorem loginSession_dormant {st : CtrlState} {iqn pk : String} {disc : Bool}
    {sock : Nat} {ok : Bool} {code : Nat} {reuse : Option Nat} :
    (iSCSILoginSession st iqn pk disc sock ok code
      reuse).state.dormantDescs = st.dormantDescs := by
  unfold iSCSILoginSession
  cases ok with
  | false => rfl
  | true =>
    cases hp : pickSid st reuse with
    | none => simp only [hp]; rfl
    | some sid => simp only [hp]; rfl

/-- A connection login leaves the dormant list unchanged. -/
theorem loginConnection_dormant {st : CtrlState} {sid : Nat} {pk : String}
    {sock : Nat} {ok : Bool} {code : Nat} :
    (iSCSILoginConnection st sid pk sock ok code).state.dormantDescs =
      st.dormantDescs := by
  unfold iSCSILoginConnection
  cases hl : st.sessions.lookup sid with
  | none => rfl
  | some sess =>
    simp only [hl]
    cases ok with
    | false => rfl
    | true =>
      cases hc : allocCid (sess.connections.map Prod.fst) with
      | none => simp only [hc]; rfl
      | some cid => simp only [hc]; rfl

/-- The additional-connection fold leaves the dormant list unchanged. -/
theorem restoreConnFold_dormant (sid : Nat) (portals : List String) :
    ∀ acc : CtrlState × List KernelCall,
      (portals.foldl (restoreConnStep sid) acc).1.dormantDescs =
        acc.1.dormantDescs := by
  induction portals with
  | nil => intro acc; rfl
  | cons pk portals ih =>
    intro acc
    rw [List.foldl_cons, ih]
    exact loginConnection_dormant

/-- Restoring one descriptor only ever appends to the dormant list. -/
theorem restoreDesc_dormant_mono (st : CtrlState) (d : ReconnectDesc)
    (ok : Bool) : ∃ ext, (restoreDesc st d ok).state.dormantDescs =
      st.dormantDescs ++ ext := by
  simp only [restoreDesc]
  split
  · exact ⟨[], by rw [restoreConnFold_dormant, loginSession_dormant,
      List.append_nil]⟩
  · exact ⟨[d], rfl⟩

/-- A descriptor whose relogin fails is recorded on the dormant list. -/
theorem restoreDesc_dormant_false (st : CtrlState) (d : ReconnectDesc) :
    (restoreDesc st d false).state.dormantDescs = st.dormantDescs ++ [d] := rfl

/-- Looking up a key after replacing its entries finds the replacement. -/
theorem lookup_map_update {l : List (Nat × SessionRec)} {sid : Nat}
    (s' : SessionRec) (h : l.lookup sid ≠ none) :
    (l.map (fun p => if p.1 = sid then (sid, s') else p)).lookup sid =
      some s' := by
  induction l with
  | nil => exact absurd rfl h
  | cons p l ih =>
    obtain ⟨k, v⟩ := p
    by_cases hk : k = sid
    · subst hk
      rw [List.map_cons, if_pos (rfl : (k, v).1 = k), List.lookup,
        beq_self_eq_true]
    · simp only [List.map_cons, if_neg hk]
      rw [List.lookup] at h ⊢
      have hbeq : (sid == k) = false :=
        beq_eq_false_iff_ne.mpr (fun e => hk e.symm)
      rw [hbeq] at h ⊢
      dsimp only at h ⊢
      exact ih h

/-- `updateSession` makes the lookup of `sid` return the new record. -/
theorem lookup_updateSession {st : CtrlState} {sid : Nat} (s' : SessionRec)
    (h : st.sessions.lookup sid ≠ none) :
    (updateSession st sid s').sessions.lookup sid = some s' :=
  lookup_map_update s' h

/-- When the held set is exactly `1..m`, the smallest-unused search finds
`m + 1`. -/
theorem firstFree_eq_of_range (held : List Nat) (m : Nat)
    (hiff : ∀ t, held.contains t = true ↔ 1 ≤ t ∧ t ≤ m) :
    ∀ fuel n, 1 ≤ n → n ≤ m + 1 → m + 1 < n + fuel →
      firstFree held fuel n = some (m + 1) := by
  intro fuel
  induction fuel with
  | zero => intro n h1 h2 h3; omega
  | succ f ih =>
    intro n h1 h2 h3
    rw [firstFree]
    by_cases hc : held.contains n = true
    · rw [if_pos hc]
      have hn := (hiff n).mp hc
      exact ih (n + 1) (by omega) (by omega) (by omega)
    · rw [if_neg hc]
      have hout : ¬(1 ≤ n ∧ n ≤ m) := fun hcon => hc ((hiff n).mpr hcon)
      have hn : n = m + 1 := by omega
      rw [hn]

/-- When the held CIDs are exactly `1..m`, `allocCid` yields `m + 1`. -/
theorem allocCid_eq_of_range {cids : List Nat} {m : Nat}
    (hiff : ∀ t, cids.contains t = true ↔ 1 ≤ t ∧ t ≤ m) (hm : m < 65535) :
    allocCid cids = some (m + 1) :=
  firstFree_eq_of_range cids m hiff 65535 1 (Nat.le_refl 1) (by omega)
    (by omega)

/-- The additional-connection relogin fold records one connection per
portal: starting from a session whose CIDs are exactly `1..k`, the
session looked up afterwards carries a connection for every portal of
the list (newest first), on top of the original connections. -/
theorem restoreConnFold_records_portals (sid : Nat) :
    ∀ (portals : List String) (acc : CtrlState × List KernelCall)
      (s : SessionRec) (k : Nat),
      acc.1.sessions.lookup sid = some s →
      (∀ t, (s.connections.map Prod.fst).contains t = true ↔
        1 ≤ t ∧ t ≤ k) →
      k + portals.length ≤ 65535 →
      ∃ s', (portals.foldl (restoreConnStep sid) acc).1.sessions.lookup sid =
          some s' ∧
        s'.connections.map (fun q => q.2.portalKey) =
          portals.reverse ++ s.connections.map (fun q => q.2.portalKey) := by
  intro portals
  induction portals with
  | nil =>
    intro acc s k hlk hiff hb
    exact ⟨s, hlk, by simp⟩
  | cons pk ps ih =>
    intro acc s k hlk hiff hb
    rw [List.foldl_cons]
    have halloc : allocCid (s.connections.map Prod.fst) = some (k + 1) :=
      allocCid_eq_of_range hiff (by simp at hb; omega)
    have hstep : (restoreConnStep sid acc pk).1 =
        updateSession acc.1 sid
          { s with connections := (k + 1, ⟨pk, 0⟩) :: s.connections } := by
      simp only [restoreConnStep, iSCSILoginConnection, hlk, halloc]
      rfl
    have hlk2 : (restoreConnStep sid acc pk).1.sessions.lookup sid =
        some { s with connections := (k + 1, ⟨pk, 0⟩) :: s.connections } := by
      rw [hstep]
      exact lookup_updateSession _
        (by rw [hlk]; exact fun hcon => Option.noConfusion hcon)
    have hiff2 : ∀ t, ((({ s with connections := (k + 1, ⟨pk, 0⟩) ::
        s.connections } : SessionRec).connections.map Prod.fst).contains t =
        true) ↔ 1 ≤ t ∧ t ≤ k + 1 := by
      intro t
      rw [List.map_cons, List.contains_cons, Bool.or_eq_true, beq_iff_eq,
        hiff t]
      omega
    obtain ⟨s', hs1, hs2⟩ := ih (restoreConnStep sid acc pk)
      { s with connections := (k + 1, ⟨pk, 0⟩) :: s.connections } (k + 1)
      hlk2 hiff2 (by simp at hb ⊢; omega)
    refine ⟨s', hs1, ?_⟩
    rw [hs2]
    simp

/-- Restoring one descriptor either attempts a connection relogin per
additional portal (leaving the dormant list alone) or attempts none and
records the descriptor as dormant. -/
theorem restoreDesc_split (st : CtrlState) (d : ReconnectDesc) (ok : Bool) :
    ((restoreDesc st d ok).connAttempts = d.extraPortals.length ∧
      (restoreDesc st d ok).state.dormantDescs = st.dormantDescs) ∨
    ((restoreDesc st d ok).connAttempts = 0 ∧
      (restoreDesc st d ok).state.dormantDescs = st.dormantDescs ++ [d]) := by
  simp only [restoreDesc]
  split
  · exact Or.inl ⟨rfl, by rw [restoreConnFold_dormant, loginSession_dormant]⟩
  · exact Or.inr ⟨rfl, rfl⟩

/-- Wake-loop accounting: the connection relogins performed plus the
additional portals of dormant-recorded descriptors equal the additional
portals of all descriptors processed. -/
theorem wakeFold_connLogins (okF : ReconnectDesc → Bool)
    (descs : List ReconnectDesc) :
    ∀ acc : WakeAcc,
      (descs.foldl (wakeStep okF) acc).connLogins +
        ((descs.foldl (wakeStep okF) acc).state.dormantDescs.map
          (fun d => d.extraPortals.length)).sum =
      acc.connLogins +
        (acc.state.dormantDescs.map (fun d => d.extraPortals.length)).sum +
        (descs.map (fun d => d.extraPortals.length)).sum := by
  induction descs with
  | nil => intro acc; simp
  | cons d ds ih =>
    intro acc
    rw [List.foldl_cons]
    have hstep := ih (wakeStep okF acc d)
    rw [hstep, show (wakeStep okF acc d).connLogins =
        acc.connLogins + (restoreDesc acc.state d (okF d)).connAttempts
        from rfl,
      show (wakeStep okF acc d).state =
        (restoreDesc acc.state d (okF d)).state from rfl]
    rcases restoreDesc_split acc.state d (okF d) with ⟨h1, h2⟩ | ⟨h1, h2⟩ <;>
      rw [h1, h2] <;>
      simp [List.sum_append] <;>
      omega

/-- The wake loop performs one session relogin per descriptor. -/
theorem wakeFold_sessionLogins (okF : ReconnectDesc → Bool)
    (descs : List ReconnectDesc) :
    ∀ acc : WakeAcc, (descs.foldl (wakeStep okF) acc).sessionLogins =
      acc.sessionLogins + descs.length := by
  induction descs with
  | nil => intro acc; simp
  | cons d ds ih =>
    intro acc
    rw [List.foldl_cons, ih]
    simp only [wakeStep, List.length_cons]
    omega

/-- The wake loop only ever appends to the dormant list. -/
theorem wakeFold_dormant_mono (okF : ReconnectDesc → Bool)
    (descs : List ReconnectDesc) :
    ∀ acc : WakeAcc, ∃ ext,
      (descs.foldl (wakeStep okF) acc).state.dormantDescs =
        acc.state.dormantDescs ++ ext := by
  induction descs with
  | nil => intro acc; exact ⟨[], (List.append_nil _).symm⟩
  | cons d ds ih =>
    intro acc
    rw [List.foldl_cons]
    obtain ⟨e2, he2⟩ := ih (wakeStep okF acc d)
    obtain ⟨e1, he1⟩ := restoreDesc_dormant_mono acc.state d (okF d)
    exact ⟨e1 ++ e2, by rw [he2, show (wakeStep okF acc d).state =
      (restoreDesc acc.state d (okF d)).state from rfl, he1,
      List.append_assoc]⟩

/-- Every descriptor whose relogin fails ends up on the dormant list. -/
theorem wakeFold_mem_dormant (okF : ReconnectDesc → Bool)
    (descs : List ReconnectDesc) :
    ∀ (acc : WakeAcc) (d : ReconnectDesc), d ∈ descs → okF d = false →
      d ∈ (descs.foldl (wakeStep okF) acc).state.dormantDescs := by
  induction descs with
  | nil => intro _ _ h _; cases h
  | cons d0 ds ih =>
    intro acc d hd hok
    rw [List.foldl_cons]
    rcases List.mem_cons.mp hd with rfl | hd'
    · obtain ⟨ext, hext⟩ := wakeFold_dormant_mono okF ds (wakeStep okF acc d)
      rw [hext]
      apply List.mem_append_left
      rw [show (wakeStep okF acc d).state =
        (restoreDesc acc.state d (okF d)).state from rfl, hok,
        restoreDesc_dormant_false]
      exact List.mem_append_right _ (List.mem_singleton.mpr rfl)
    · exact ih _ d hd' hok

/-- The failure flag of the wake loop is monotone. -/
theorem wakeFold_anyFailed_mono (okF : ReconnectDesc → Bool)
    (descs : List ReconnectDesc) :
    ∀ acc : WakeAcc, acc.anyFailed = true →
      (descs.foldl (wakeStep okF) acc).anyFailed = true := by
  induction descs with
  | nil => intro acc h; exact h
  | cons d ds ih =>
    intro acc h
    rw [List.foldl_cons]
    exact ih _ (by simp only [wakeStep, h, Bool.true_or])

/-- A failed descriptor sets the failure flag of the wake loop. -/
theorem wakeFold_anyFailed_of_mem (okF : ReconnectDesc → Bool)
    (descs : List ReconnectDesc) :
    ∀ (acc : WakeAcc) (d : ReconnectDesc), d ∈ descs → okF d = false →
      (descs.foldl (wakeStep okF) acc).anyFailed = true := by
  induction descs with
  | nil => intro _ _ h _; cases h
  | cons d0 ds ih =>
    intro acc d hd hok
    rw [List.foldl_cons]
    rcases List.mem_cons.mp hd with rfl | hd'
    · refine wakeFold_anyFailed_mono okF ds _ ?_
      simp only [wakeStep, hok]
      rw [show (restoreDesc acc.state d false).failed = true from rfl]
      exact Bool.or_true _
    · exact ih _ d hd' hok

/-- The wake loop adds no kernel `resume`. -/
theorem wakeFold_no_resume (okF : ReconnectDesc → Bool)
    (descs : List ReconnectDesc) :
    ∀ acc : WakeAcc, (∀ c ∈ acc.kernelCalls, c ≠ KernelCall.resume) →
      ∀ c ∈ (descs.foldl (wakeStep okF) acc).kernelCalls,
        c ≠ KernelCall.resume := by
  induction descs with
  | nil => intro acc h; exact h
  | cons d ds ih =>
    intro acc h
    rw [List.foldl_cons]
    refine ih _ ?_
    intro c hc
    rcases List.mem_append.mp hc with hs | hs
    · exact h c hs
    · exact restoreDesc_no_resume acc.state d (okF d) c hs

/-- C8: `iSCSIRestoreForSystemWake` re-runs a session login for every
stored descriptor (even when earlier restorations fail); a descriptor
whose relogin fails is recorded as `Dormant` and an error is surfaced
while the remaining descriptors are still processed; kernel `resume` is
called exactly once, after all restorations; a restoration whose
original SID is still free is assigned that SID; a successful
restoration re-runs `iSCSILoginConnection` for each additional portal,
leaving the session with one connection record per portal; and the
connection-relogin count equals one per additional portal of every
descriptor not recorded `Dormant`. -/
theorem restoreForWake_processes_all_then_resume :
    (∀ (st : CtrlState) (okF : ReconnectDesc → Bool),
        (iSCSIRestoreForSystemWake st okF).sessionLogins =
          st.sleepDescs.length) ∧
    (∀ (st : CtrlState) (okF : ReconnectDesc → Bool) (d : ReconnectDesc),
        d ∈ st.sleepDescs → okF d = false →
        d ∈ (iSCSIRestoreForSystemWake st okF).state.dormantDescs ∧
          (iSCSIRestoreForSystemWake st okF).errno ≠ 0) ∧
    (∀ (st : CtrlState) (okF : ReconnectDesc → Bool),
        (iSCSIRestoreForSystemWake st okF).kernelCalls.getLast? =
          some KernelCall.resume ∧
        (iSCSIRestoreForSystemWake st okF).kernelCalls.count
          KernelCall.resume = 1) ∧
    (∀ (st : CtrlState) (d : ReconnectDesc), 1 ≤ d.sid → d.sid ≤ 65535 →
        (heldSids st).contains d.sid = false →
        (restoreDesc st d true).assignedSid = d.sid) ∧
    (∀ (st : CtrlState) (d : ReconnectDesc), 1 ≤ d.sid → d.sid ≤ 65535 →
        (heldSids st).contains d.sid = false →
        d.extraPortals.length ≤ 65534 →
        ((restoreDesc st d true).state.sessions.lookup d.sid).map
            (fun s => s.connections.map (fun q => q.2.portalKey)) =
          some (d.extraPortals.reverse ++ [d.leadingPortal])) ∧
    (∀ (st : CtrlState) (okF : ReconnectDesc → Bool),
        (iSCSIRestoreForSystemWake st okF).connLogins +
          ((iSCSIRestoreForSystemWake st okF).state.dormantDescs.map
            (fun d => d.extraPortals.length)).sum =
          (st.dormantDescs.map (fun d => d.extraPortals.length)).sum +
            (st.sleepDescs.map (fun d => d.extraPortals.length)).sum) := by
  refine ⟨?_, ?_, ?_, ?_, ?_, ?_⟩
  · intro st okF
    rw [show (iSCSIRestoreForSystemWake st okF).sessionLogins =
      (st.sleepDescs.foldl (wakeStep okF)
        ⟨{ st with sleepDescs := [] }, [], 0, 0, false⟩).sessionLogins from rfl]
    rw [wakeFold_sessionLogins]
    simp
  · intro st okF d hd hok
    constructor
    · exact wakeFold_mem_dormant okF st.sleepDescs _ d hd hok
    · have hfail := wakeFold_anyFailed_of_mem okF st.sleepDescs
        ⟨{ st with sleepDescs := [] }, [], 0, 0, false⟩ d hd hok
      rw [show (iSCSIRestoreForSystemWake st okF).errno =
        (if (st.sleepDescs.foldl (wakeStep okF)
          ⟨{ st with sleepDescs := [] }, [], 0, 0, false⟩).anyFailed then 5
          else 0) from rfl, hfail]
      simp
  · intro st okF
    have hnores := wakeFold_no_resume okF st.sleepDescs
      ⟨{ st with sleepDescs := [] }, [], 0, 0, false⟩ (fun c hc => by cases hc)
    rw [show (iSCSIRestoreForSystemWake st okF).kernelCalls =
      (st.sleepDescs.foldl (wakeStep okF)
        ⟨{ st with sleepDescs := [] }, [], 0, 0, false⟩).kernelCalls ++
        [KernelCall.resume] from rfl]
    constructor
    · rw [List.getLast?_concat]
    · rw [List.count_append]
      have : (st.sleepDescs.foldl (wakeStep okF)
          ⟨{ st with sleepDescs := [] }, [], 0, 0, false⟩).kernelCalls.count
          KernelCall.resume = 0 :=
        List.count_eq_zero.mpr (fun hmem => hnores _ hmem rfl)
      rw [this]
      simp
  · intro st d h1 h2 h3
    have hpick : pickSid st (some d.sid) = some d.sid := by
      simp only [pickSid]
      rw [if_pos ⟨h1, h2, by rw [h3]; exact Bool.false_ne_true⟩]
    simp only [restoreDesc, iSCSILoginSession, hpick]
    rfl
  · intro st d h1 h2 h3 h4
    have hpick : pickSid st (some d.sid) = some d.sid := by
      simp only [pickSid]
      rw [if_pos ⟨h1, h2, by rw [h3]; exact Bool.false_ne_true⟩]
    have hstate : (restoreDesc st d true).state =
        (d.extraPortals.foldl (restoreConnStep d.sid)
          ({ st with
              sessions := (d.sid, ⟨d.iqn, false,
                [(1, ⟨d.leadingPortal, 0⟩)], 1, SessState.loggedIn⟩) ::
                  st.sessions.filter
                    (fun p => !(p.2.iqn == d.iqn && !p.2.discovery)) },
            (st.sessions.filter
              (fun p => p.2.iqn == d.iqn && !p.2.discovery)).map
                (fun p => KernelCall.release p.1 none) ++
              [KernelCall.install d.sid 1])).1 := by
      simp only [restoreDesc, iSCSILoginSession, hpick]
      rfl
    obtain ⟨s', hs1, hs2⟩ := restoreConnFold_records_portals d.sid
      d.extraPortals
      ({ st with
          sessions := (d.sid, ⟨d.iqn, false,
            [(1, ⟨d.leadingPortal, 0⟩)], 1, SessState.loggedIn⟩) ::
              st.sessions.filter
                (fun p => !(p.2.iqn == d.iqn && !p.2.discovery)) },
        (st.sessions.filter
          (fun p => p.2.iqn == d.iqn && !p.2.discovery)).map
            (fun p => KernelCall.release p.1 none) ++
          [KernelCall.install d.sid 1])
      ⟨d.iqn, false, [(1, ⟨d.leadingPortal, 0⟩)], 1, SessState.loggedIn⟩ 1
      (by simp [List.lookup])
      (by intro t; simp [List.contains_cons]; omega)
      (by omega)
    rw [hstate, hs1, Option.map_some', hs2]
    simp
  · intro st okF
    have h := wakeFold_connLogins okF st.sleepDescs
      ⟨{ st with sleepDescs := [] }, [], 0, 0, false⟩
    dsimp only at h
    rw [show (iSCSIRestoreForSystemWake st okF).connLogins =
      (st.sleepDescs.foldl (wakeStep okF)
        ⟨{ st with sleepDescs := [] }, [], 0, 0, false⟩).connLogins from rfl,
      show (iSCSIRestoreForSystemWake st okF).state =
        (st.sleepDescs.foldl (wakeStep okF)
          ⟨{ st with sleepDescs := [] }, [], 0, 0, false⟩).state from rfl]
    omega

/-- Witness for C8: a failing descriptor lands on the dormant list, a
restoration whose original SID is free keeps that SID, and a successful
restoration with one additional portal records both connections. -/
theorem restoreForWake_processes_all_then_resume_witness :
    (⟨2, ("iqn.b"), ("q"), []⟩ : ReconnectDesc) ∈
      (iSCSIRestoreForSystemWake
        ⟨[], [⟨1, ("iqn.a"), ("p"), []⟩, ⟨2, ("iqn.b"), ("q"), []⟩], []⟩
        (fun d => d.sid == 1)).state.dormantDescs ∧
    (restoreDesc initCtrl ⟨3, ("iqn.c"), ("r"), []⟩ true).assignedSid = 3 ∧
    ((restoreDesc initCtrl ⟨3, ("iqn.c"), ("r"), [("r2")]⟩
        true).state.sessions.lookup 3).map
          (fun s => s.connections.map (fun q => q.2.portalKey)) =
      some ([("r2")].reverse ++ [("r")]) :=
  ⟨(restoreForWake_processes_all_then_resume.2.1
      ⟨[], [⟨1, ("iqn.a"), ("p"), []⟩, ⟨2, ("iqn.b"), ("q"), []⟩], []⟩
      (fun d => d.sid == 1) ⟨2, ("iqn.b"), ("q"), []⟩ (by decide)
      (by decide)).1,
    restoreForWake_processes_all_then_resume.2.2.2.1 initCtrl
      ⟨3, ("iqn.c"), ("r"), []⟩ (by decide) (by decide) (by decide),
    restoreForWake_processes_all_then_resume.2.2.2.2.1 initCtrl
      ⟨3, ("iqn.c"), ("r"), [("r2")]⟩ (by decide) (by decide) (by decide)
      (by decide)⟩

/-- `InitPrecedes` lifts over a prepended call. -/
theorem initPrecedes_cons {x : ApiCall} {tr : List ApiCall} {i : Nat}
    (h : InitPrecedes tr i) : InitPrecedes (x :: tr) (i + 1) := by
  obtain ⟨j, hj, hji, hnc⟩ := h
  refine ⟨j + 1, by omega, by simpa using hji, ?_⟩
  intro k hk hjk
  cases k with
  | zero => omega
  | succ k' =>
    rw [List.getElem?_cons_succ]
    exact hnc k' (by omega) (by omega)

/-- Generalized form of the initialization-protocol property: at every
session operation of a valid continuation, either an `initialize` with
no later `cleanup` precedes it, or the controller was already
initialized and no `cleanup` precedes it at all. -/
theorem validFrom_initPrecedes {b : Bool} {tr : List ApiCall}
    (h : ValidFrom b tr) :
    ∀ i tag, tr[i]? = some (ApiCall.sessionOp tag) →
      InitPrecedes tr i ∨ (b = true ∧ NoCleanupBefore tr i) := by
  induction h with
  | nil => intro i tag hi; simp at hi
  | doInit _ ih =>
    intro i tag hi
    cases i with
    | zero => simp at hi
    | succ i' =>
      rw [List.getElem?_cons_succ] at hi
      rcases ih i' tag hi with hip | ⟨_, hnc⟩
      · exact Or.inl (initPrecedes_cons hip)
      · refine Or.inl ⟨0, by omega, by simp, ?_⟩
        intro k hk hjk
        cases k with
        | zero => omega
        | succ k' =>
          rw [List.getElem?_cons_succ]
          exact hnc k' (by omega)
  | doSessionOp tag' _ ih =>
    intro i tag hi
    cases i with
    | zero =>
      refine Or.inr ⟨rfl, ?_⟩
      intro k hk
      omega
    | succ i' =>
      rw [List.getElem?_cons_succ] at hi
      rcases ih i' tag hi with hip | ⟨_, hnc⟩
      · exact Or.inl (initPrecedes_cons hip)
      · refine Or.inr ⟨rfl, ?_⟩
        intro k hk
        cases k with
        | zero => intro hc; simp at hc
        | succ k' =>
          rw [List.getElem?_cons_succ]
          exact hnc k' (by omega)
  | doShutdown _ ih =>
    intro i tag hi
    cases i with
    | zero => simp at hi
    | succ i' =>
      rw [List.getElem?_cons_succ] at hi
      rcases ih i' tag hi with hip | ⟨hb, _⟩
      · exact Or.inl (initPrecedes_cons hip)
      · exact absurd hb (by simp)

/-- C9: in every valid call sequence of the interface, every
session-related operation is preceded by an `iSCSIInitialize` with no
`iSCSICleanup` in between (so after a cleanup no session operation
occurs until the next initialize) — call sequences violating this are
exactly those excluded from `ValidFrom`, whose results the header
leaves undefined. -/
theorem controller_init_precedes_session_ops :
    ∀ tr, ValidFrom false tr →
      ∀ i tag, tr[i]? = some (ApiCall.sessionOp tag) → InitPrecedes tr i := by
  intro tr h i tag hi
  rcases validFrom_initPrecedes h i tag hi with hip | ⟨hb, _⟩
  · exact hip
  · exact absurd hb (by simp)

/-- Witness for C9: in the valid trace `[initialize, sessionOp 0]` the
session operation at position 1 is preceded by the initialize. -/
theorem controller_init_precedes_session_ops_witness :
    InitPrecedes [ApiCall.initCall, ApiCall.sessionOp 0] 1 :=
  controller_init_precedes_session_ops _
    (ValidFrom.doInit (ValidFrom.doSessionOp 0 ValidFrom.nil)) 1 0 rfl

end ISCSI
